import Mathlib

/-!
Verification of the arete provenance-trace subsystem against its
natural-language specification.  The definitions below are shallow
embeddings of the TypeScript source files:

  * packages/backend/src/handlers/trace.ts        (HTTP read/write handlers)
  * packages/contracts/src/web/schemas.ts         (zod payload validators)
  * packages/discord-bot/src/utils/response/provenanceInteractions.ts
                                                  (anchor resolution, text
                                                   recovery, lens sessions,
                                                   in-progress guards,
                                                   interaction replies)

JavaScript numbers are modelled as rationals, dates as integer millisecond
timestamps, and JSON values as an inductive type.  External collaborators
(the Discord API, JS date parsing, URL validation) enter as explicit
function parameters so theorems quantify over their behaviour.
-/

namespace Arete

/-- Model of a JSON value as produced by JSON.parse: numbers are rationals,
objects are association lists in key order. -/
inductive Json where
  | null : Json
  | bool : Bool → Json
  | num : Rat → Json
  | str : String → Json
  | arr : List Json → Json
  | obj : List (String × Json) → Json

/-- Property access `value[key]` on a parsed JSON value: first matching key
of an object, absent otherwise. -/
def getField : Json → String → Option Json
  | Json.obj fields, key => (fields.find? (fun f => f.1 = key)).map (·.2)
  | _, _ => Option.none

/-- An HTTP response as produced by sendJson in trace.ts: a status code and
a JSON body. -/
structure HttpResponse where
  status : Nat
  body : Json

/-- Model of trace.ts getStaleAfterDate (lines 64-74).  `parseDate` stands
for JavaScript `new Date(s).getTime()`, returning none on NaN.  The source
first requires `typeof staleAfter === 'string'`, then rejects falsy strings
(the empty string) via `if (!staleAfter)`, then rejects unparsable dates. -/
def getStaleAfterDate (parseDate : String → Option Int) (metadata : Json) :
    Option Int :=
  match getField metadata "staleAfter" with
  | Option.some (Json.str s) => if s = "" then Option.none else parseDate s
  | _ => Option.none

/-- Result of readTraceMetadata in trace.ts (lines 77-93). -/
inductive TraceReadResult where
  | found : Json → TraceReadResult
  | notFound : TraceReadResult
  | readError : String → TraceReadResult

/-- The 410 response body built by trace.ts lines 240-243. -/
def staleEnvelope (metadata : Json) : Json :=
  Json.obj [("message", Json.str "Trace is stale"), ("metadata", metadata)]

/-- Model of the tail of handleTraceRequest in trace.ts (lines 203-249):
store-availability guard, dispatch on the read result, then the staleness
branch.  `now` models `new Date().getTime()` at the comparison. -/
def handleTraceRequest (parseDate : String → Option Int) (now : Int)
    (storeAvailable : Bool) (readResult : TraceReadResult) : HttpResponse :=
  if !storeAvailable then
    ⟨503, Json.obj [("error", Json.str "Trace store unavailable")]⟩
  else
    match readResult with
    | TraceReadResult.notFound =>
        ⟨404, Json.obj [("error", Json.str "Trace not found")]⟩
    | TraceReadResult.readError _ =>
        ⟨500, Json.obj [("error", Json.str "Failed to read trace")]⟩
    | TraceReadResult.found metadata =>
        match getStaleAfterDate parseDate metadata with
        | Option.some t =>
            if t < now then ⟨410, staleEnvelope metadata⟩ else ⟨200, metadata⟩
        | Option.none => ⟨200, metadata⟩

/-- Unfolding lemma: the read handler with an available store and a found
record is exactly the staleness branch. -/
theorem handleTraceRequest_found (parseDate : String → Option Int) (now : Int)
    (m : Json) :
    handleTraceRequest parseDate now true (TraceReadResult.found m) =
      match getStaleAfterDate parseDate m with
      | Option.some t =>
          if t < now then ⟨410, staleEnvelope m⟩ else ⟨200, m⟩
      | Option.none => ⟨200, m⟩ := rfl

/-- C1.  For every record returned by the trace store to the GET read
handler: if the record's staleAfter field is a string that parses to a
valid date strictly earlier than the current time, the handler responds
410 with body message "Trace is stale" plus the stored record; if
staleAfter is absent, not a string, unparsable as a date (in JavaScript the
empty string never parses, hence the hypothesis on parseDate), or parses
to a time not earlier than now, the handler responds 200 with the raw
stored metadata. -/
theorem trace_read_stale_branching (parseDate : String → Option Int)
    (now : Int) (m : Json) (hEmpty : parseDate "" = Option.none) :
    (∀ s t, getField m "staleAfter" = Option.some (Json.str s) →
      parseDate s = Option.some t → t < now →
      handleTraceRequest parseDate now true (TraceReadResult.found m) =
        ⟨410, staleEnvelope m⟩) ∧
    ((∀ s, getField m "staleAfter" = Option.some (Json.str s) →
        ∀ t, parseDate s = Option.some t → now ≤ t) →
      handleTraceRequest parseDate now true (TraceReadResult.found m) =
        ⟨200, m⟩) := by
  constructor
  · intro s t hs hp hlt
    rw [handleTraceRequest_found]
    unfold getStaleAfterDate
    rw [hs]
    by_cases he : s = ""
    · rw [he] at hp; rw [hEmpty] at hp; cases hp
    · simp only [he, if_false, hp, hlt, if_true]
  · intro H
    rw [handleTraceRequest_found]
    unfold getStaleAfterDate
    cases hsf : getField m "staleAfter" with
    | none => rfl
    | some v =>
      cases v with
      | str s =>
        by_cases he : s = ""
        · simp only [he, if_true]
        · simp only [he, if_false]
          cases hp : parseDate s with
          | none => rfl
          | some t =>
            have hle := H s hsf t hp
            simp only [not_lt.mpr hle, if_false]
      | null => rfl
      | bool b => rfl
      | num q => rfl
      | arr xs => rfl
      | obj fs => rfl

/-- A concrete stale record used as the witness input for C1. -/
def staleRecordExample : Json :=
  Json.obj [("responseId", Json.str "resp_1"),
            ("staleAfter", Json.str "2020-01-01T00:00:00Z")]

/-- A concrete model of date parsing used by witnesses. -/
def parseDateExample : String → Option Int :=
  fun s => if s = "2020-01-01T00:00:00Z" then Option.some 100 else Option.none

/-- C1 witness: with staleAfter parsing to time 100 and current time 200,
the read handler answers 410 with the stale envelope. -/
theorem trace_read_stale_branching_witness :
    handleTraceRequest parseDateExample 200 true
      (TraceReadResult.found staleRecordExample) =
      ⟨410, staleEnvelope staleRecordExample⟩ :=
  (trace_read_stale_branching parseDateExample 200 staleRecordExample
    rfl).1 "2020-01-01T00:00:00Z" 100 rfl rfl (by norm_num)

/-! Zod payload validators from packages/contracts/src/web/schemas.ts.
`validUrl` models zod's `z.string().url()` check (JavaScript `new URL`). -/

/-- Check `z.string()` on one field of an object. -/
def fieldIsString (v : Json) (key : String) : Bool :=
  match getField v key with
  | Option.some (Json.str _) => true
  | _ => false

/-- Check `z.string().min(1)` on one field. -/
def fieldIsNonemptyString (v : Json) (key : String) : Bool :=
  match getField v key with
  | Option.some (Json.str s) => decide (1 ≤ s.length)
  | _ => false

/-- Check `z.enum(allowed)` on one field. -/
def fieldIsEnum (v : Json) (key : String) (allowed : List String) : Bool :=
  match getField v key with
  | Option.some (Json.str s) => allowed.contains s
  | _ => false

/-- Check `z.number().min(0).max(1)` on one field. -/
def fieldIsUnitIntervalNum (v : Json) (key : String) : Bool :=
  match getField v key with
  | Option.some (Json.num q) => decide (0 ≤ q) && decide (q ≤ 1)
  | _ => false

/-- Check `z.number().nonnegative()` on one field.  Note: the source uses
no `.int()` refinement here, so fractional values pass. -/
def fieldIsNonnegNum (v : Json) (key : String) : Bool :=
  match getField v key with
  | Option.some (Json.num q) => decide (0 ≤ q)
  | _ => false

/-- Model of CitationSchema (strict object with title, url, optional
snippet; url must pass the URL check). -/
def validCitation (validUrl : String → Bool) (v : Json) : Bool :=
  match v with
  | Json.obj fields =>
      fieldIsString v "title" &&
      (match getField v "url" with
       | Option.some (Json.str u) => validUrl u
       | _ => false) &&
      (match getField v "snippet" with
       | Option.none => true
       | Option.some (Json.str _) => true
       | _ => false) &&
      fields.all (fun f => ["title", "url", "snippet"].contains f.1)
  | _ => false

/-- Check `z.array(CitationSchema)` on one field. -/
def fieldIsCitationArray (validUrl : String → Bool) (v : Json) (key : String) :
    Bool :=
  match getField v key with
  | Option.some (Json.arr xs) => xs.all (validCitation validUrl)
  | _ => false

/-- Check `z.array(z.string()).optional()` on one field. -/
def fieldIsOptionalStringArray (v : Json) (key : String) : Bool :=
  match getField v key with
  | Option.none => true
  | Option.some (Json.arr xs) =>
      xs.all (fun x => match x with | Json.str _ => true | _ => false)
  | _ => false

/-- The declared keys of responseMetadataShape in schemas.ts lines 26-38. -/
def responseMetadataKeys : List String :=
  ["responseId", "provenance", "confidence", "riskTier", "tradeoffCount",
   "chainHash", "licenseContext", "modelVersion", "staleAfter", "citations",
   "imageDescriptions"]

/-- The per-field checks of responseMetadataShape (schemas.ts lines 26-38). -/
def responseMetadataShapeValid (validUrl : String → Bool) (v : Json) : Bool :=
  fieldIsNonemptyString v "responseId" &&
  fieldIsEnum v "provenance" ["Retrieved", "Inferred", "Speculative"] &&
  fieldIsUnitIntervalNum v "confidence" &&
  fieldIsEnum v "riskTier" ["Low", "Medium", "High"] &&
  fieldIsNonnegNum v "tradeoffCount" &&
  fieldIsString v "chainHash" &&
  fieldIsString v "licenseContext" &&
  fieldIsString v "modelVersion" &&
  fieldIsString v "staleAfter" &&
  fieldIsCitationArray validUrl v "citations" &&
  fieldIsOptionalStringArray v "imageDescriptions"

/-- Model of ResponseMetadataSchema (`z.object(shape).passthrough()`):
unknown top-level keys are allowed and preserved. -/
def validateResponseMetadata (validUrl : String → Bool) (v : Json) : Bool :=
  match v with
  | Json.obj _ => responseMetadataShapeValid validUrl v
  | _ => false

/-- Model of PostTracesRequestSchema (`z.object(shape).strict()`): unknown
top-level keys are rejected. -/
def validatePostTracesRequest (validUrl : String → Bool) (v : Json) : Bool :=
  match v with
  | Json.obj fields =>
      responseMetadataShapeValid validUrl v &&
      fields.all (fun f => responseMetadataKeys.contains f.1)
  | _ => false

/-! Trace record store.  The key-value backend
(packages/backend/src/storage/traces/traceStore.ts) is not part of the
provided sources, so it is modelled from the specification. -/

/-- Modelled from the spec: the trace store state — a key-value map from
responseId to the stored record (traceStore.ts is missing from the
provided sources; §4.1 describes `upsert`/`retrieve`). -/
def TraceStoreState : Type := List (String × Json)

/-- Lookup in an association list (model of Map.get). -/
def getAssoc {α : Type} (key : String) (l : List (String × α)) : Option α :=
  (l.find? (fun e => e.1 = key)).map (·.2)

/-- Insert-or-overwrite in an association list, keeping key order (model of
Map.set). -/
def setAssoc {α : Type} (key : String) (val : α) : List (String × α) →
    List (String × α)
  | [] => [(key, val)]
  | (k, v) :: rest =>
      if k = key then (key, val) :: rest else (k, v) :: setAssoc key val rest

/-- Deletion from an association list (model of Map.delete). -/
def removeAssoc {α : Type} (key : String) (l : List (String × α)) :
    List (String × α) :=
  l.filter (fun e => e.1 ≠ key)

theorem getAssoc_setAssoc {α : Type} (l : List (String × α)) (key : String)
    (val : α) : getAssoc key (setAssoc key val l) = Option.some val := by
  induction l with
  | nil => simp [getAssoc, setAssoc]
  | cons head tail ih =>
    obtain ⟨k, v⟩ := head
    by_cases hk : k = key
    · simp [getAssoc, setAssoc, hk]
    · simp only [setAssoc, if_neg hk]
      simpa [getAssoc, List.find?, hk] using ih

theorem getAssoc_removeAssoc {α : Type} (l : List (String × α))
    (key : String) : getAssoc key (removeAssoc key l) = Option.none := by
  rw [getAssoc]
  have hfind : List.find? (fun e => decide (e.1 = key)) (removeAssoc key l) =
      Option.none := by
    rw [List.find?_eq_none]
    intro e he
    have := (List.mem_filter.mp he).2
    simpa using this
  rw [hfind]
  rfl

/-- Modelled from the spec: `upsert(metadata)` durably stores/overwrites by
responseId (§4.1); the stored value is the whole metadata record. -/
def traceUpsert (store : TraceStoreState) (m : Json) : TraceStoreState :=
  match getField m "responseId" with
  | Option.some (Json.str id) => setAssoc id m store
  | _ => store

/-- Modelled from the spec: `retrieve(responseId)` returns the stored
record or an explicit not-found signal (§4.1). -/
def traceRetrieve (store : TraceStoreState) (id : String) : Option Json :=
  ((store : List (String × Json)).find? (fun e => e.1 = id)).map (·.2)

theorem traceRetrieve_setAssoc (store : List (String × Json)) (id : String)
    (m : Json) : traceRetrieve (setAssoc id m store) id = Option.some m :=
  getAssoc_setAssoc store id m

/-- C2.  Every metadata payload accepted by the passthrough validator —
including payloads carrying unrecognized extra top-level fields — has a
string responseId, and upsert followed by retrieve at that responseId
returns exactly the stored payload, extra fields included (the store keeps
the whole record). -/
theorem trace_round_trip (validUrl : String → Bool) (store : TraceStoreState)
    (m : Json) (h : validateResponseMetadata validUrl m = true) :
    ∃ id, getField m "responseId" = Option.some (Json.str id) ∧
      traceRetrieve (traceUpsert store m) id = Option.some m := by
  have hshape : responseMetadataShapeValid validUrl m = true := by
    cases m with
    | obj fields => simpa [validateResponseMetadata] using h
    | null => simp [validateResponseMetadata] at h
    | bool b => simp [validateResponseMetadata] at h
    | num q => simp [validateResponseMetadata] at h
    | str s => simp [validateResponseMetadata] at h
    | arr xs => simp [validateResponseMetadata] at h
  have hid : fieldIsNonemptyString m "responseId" = true := by
    simp only [responseMetadataShapeValid, Bool.and_eq_true] at hshape
    exact hshape.1.1.1.1.1.1.1.1.1.1
  unfold fieldIsNonemptyString at hid
  cases hrid : getField m "responseId" with
  | none => rw [hrid] at hid; cases hid
  | some v =>
    cases v with
    | str id =>
        refine ⟨id, rfl, ?_⟩
        unfold traceUpsert
        rw [hrid]
        exact traceRetrieve_setAssoc store id m
    | null => rw [hrid] at hid; cases hid
    | bool b => rw [hrid] at hid; cases hid
    | num q => rw [hrid] at hid; cases hid
    | arr xs => rw [hrid] at hid; cases hid
    | obj fs => rw [hrid] at hid; cases hid

/-- A fully valid metadata payload that also carries an unrecognized extra
top-level field (futureField). -/
def metadataWithExtraField : Json :=
  Json.obj [("responseId", Json.str "resp_1"),
            ("provenance", Json.str "Retrieved"),
            ("confidence", Json.num 1),
            ("riskTier", Json.str "Low"),
            ("tradeoffCount", Json.num 2),
            ("chainHash", Json.str "hash_abc"),
            ("licenseContext", Json.str "MIT"),
            ("modelVersion", Json.str "gpt-5"),
            ("staleAfter", Json.str "2030-01-01T00:00:00Z"),
            ("citations", Json.arr []),
            ("futureField", Json.bool true)]

/-- C2 witness: the round trip through the modelled store preserves a
payload with an unknown extra field. -/
theorem trace_round_trip_witness :
    ∃ id, getField metadataWithExtraField "responseId" =
        Option.some (Json.str id) ∧
      traceRetrieve (traceUpsert [] metadataWithExtraField) id =
        Option.some metadataWithExtraField :=
  trace_round_trip (fun _ => false) [] metadataWithExtraField rfl

/-- A payload that is valid for the strict write schema except that its
tradeoffCount is the fractional number 3/2 (JavaScript 1.5). -/
def fractionalTradeoffPayload : Json :=
  Json.obj [("responseId", Json.str "resp_frac"),
            ("provenance", Json.str "Inferred"),
            ("confidence", Json.num 1),
            ("riskTier", Json.str "Medium"),
            ("tradeoffCount", Json.num (Rat.mk' 3 2)),
            ("chainHash", Json.str "hash_frac"),
            ("licenseContext", Json.str "MIT"),
            ("modelVersion", Json.str "gpt-5"),
            ("staleAfter", Json.str "2030-01-01T00:00:00Z"),
            ("citations", Json.arr [])]

/-- C8 counterexample: the strict write validator accepts a payload whose
tradeoffCount is the non-integral number 3/2, contradicting the claim that
every payload with non-integral tradeoffCount is rejected (the source uses
`z.number().nonnegative()` with no `.int()` refinement). -/
theorem tradeoffCount_fractional_accepted :
    validatePostTracesRequest (fun _ => false) fractionalTradeoffPayload =
        true ∧
      getField fractionalTradeoffPayload "tradeoffCount" =
        Option.some (Json.num (Rat.mk' 3 2)) ∧
      ((Rat.mk' 3 2 : Rat).den ≠ 1) := by
  refine ⟨by decide, rfl, by decide⟩

/-- C8 amended: validation accepts a payload only when its tradeoffCount
field is a number greater than or equal to 0; negative values are rejected,
but non-integral nonnegative values (such as 1.5) are accepted. -/
theorem tradeoffCount_nonneg_of_valid (validUrl : String → Bool) (p : Json)
    (h : validatePostTracesRequest validUrl p = true) :
    ∃ q : Rat, getField p "tradeoffCount" = Option.some (Json.num q) ∧
      0 ≤ q := by
  have hshape : responseMetadataShapeValid validUrl p = true := by
    cases p with
    | obj fields =>
        simp only [validatePostTracesRequest, Bool.and_eq_true] at h
        exact h.1
    | null => simp [validatePostTracesRequest] at h
    | bool b => simp [validatePostTracesRequest] at h
    | num q => simp [validatePostTracesRequest] at h
    | str s => simp [validatePostTracesRequest] at h
    | arr xs => simp [validatePostTracesRequest] at h
  have htc : fieldIsNonnegNum p "tradeoffCount" = true := by
    simp only [responseMetadataShapeValid, Bool.and_eq_true] at hshape
    exact hshape.1.1.1.1.1.1.2
  unfold fieldIsNonnegNum at htc
  cases htf : getField p "tradeoffCount" with
  | none => rw [htf] at htc; cases htc
  | some v =>
    cases v with
    | num q =>
        rw [htf] at htc
        exact ⟨q, rfl, by simpa using htc⟩
    | null => rw [htf] at htc; cases htc
    | bool b => rw [htf] at htc; cases htc
    | str s => rw [htf] at htc; cases htc
    | arr xs => rw [htf] at htc; cases htc
    | obj fs => rw [htf] at htc; cases htc

/-- C8 amended witness: applied to the concrete fractional payload, the
validator's acceptance yields a nonnegative tradeoffCount value. -/
theorem tradeoffCount_nonneg_of_valid_witness :
    ∃ q : Rat, getField fractionalTradeoffPayload "tradeoffCount" =
        Option.some (Json.num q) ∧ 0 ≤ q :=
  tradeoffCount_nonneg_of_valid (fun _ => false) fractionalTradeoffPayload rfl

/-! The POST /api/traces write handler (trace.ts lines 270-460). -/

/-- Dependencies injected into the write handler (TraceHandlerDeps plus the
URL check used by the schema). -/
structure WriteDeps where
  storeAvailable : Bool
  traceToken : Option String
  limiterAvailable : Bool
  limiterAllows : String → Bool
  limiterRetryAfter : String → Nat
  maxTraceBodyBytes : Nat
  validUrl : String → Bool

/-- Outcome of reading and JSON-parsing the request body stream. -/
inductive BodyState where
  | empty : BodyState
  | invalidJson : BodyState
  | json : Json → BodyState

/-- One incoming write request, after header normalization: `tokenHeader`
is the first value of the x-arete-trace-token header, `contentLength` the
numeric Content-Length when present and finite, `bodyBytes` the streamed
byte count. -/
structure WriteRequest where
  methodPost : Bool
  tokenHeader : Option String
  clientIp : String
  contentLength : Option Int
  bodyBytes : Nat
  body : BodyState

/-- The declared Content-Length pre-check of trace.ts lines 352-367. -/
def declaredLengthExceeds (maxBytes : Nat) (contentLength : Option Int) :
    Bool :=
  match contentLength with
  | Option.some n => decide ((maxBytes : Int) < n)
  | Option.none => false

/-- The responseId read off the parsed payload (normalizedMetadata.responseId
at trace.ts line 447); validation guarantees it is a nonempty string. -/
def parsedResponseId (payload : Json) : String :=
  match getField payload "responseId" with
  | Option.some (Json.str s) => s
  | _ => ""

/-- The success body of trace.ts line 451. -/
def upsertOkBody (payload : Json) : Json :=
  Json.obj [("ok", Json.bool true),
            ("responseId", Json.str (parsedResponseId payload))]

/-- Model of handleTraceUpsertRequest (trace.ts lines 270-460): method
check, store/token/limiter availability guards, token match, rate limit,
size caps, body parse, strict schema validation, then upsert.  Error
bodies carry the literal error strings of the source; the 400 validation
response's missing-responseId/invalid-payload distinction is collapsed to
one body since no claim depends on it. -/
def handleTraceUpsertRequest (deps : WriteDeps) (store : TraceStoreState)
    (req : WriteRequest) : HttpResponse × TraceStoreState :=
  if !req.methodPost then
    (⟨405, Json.obj [("error", Json.str "Method not allowed")]⟩, store)
  else if !deps.storeAvailable then
    (⟨503, Json.obj [("error", Json.str "Trace store unavailable")]⟩, store)
  else
    match deps.traceToken with
    | Option.none =>
        (⟨503, Json.obj [("error", Json.str "Trace ingestion not configured")]⟩,
         store)
    | Option.some token =>
        match req.tokenHeader with
        | Option.none =>
            (⟨401, Json.obj [("error", Json.str "Missing trace token")]⟩,
             store)
        | Option.some provided =>
            if provided = "" then
              (⟨401, Json.obj [("error", Json.str "Missing trace token")]⟩,
               store)
            else if provided ≠ token then
              (⟨403, Json.obj [("error", Json.str "Invalid trace token")]⟩,
               store)
            else if !deps.limiterAvailable then
              (⟨503,
                Json.obj [("error", Json.str "Trace rate limiter unavailable")]⟩,
               store)
            else if !deps.limiterAllows req.clientIp then
              (⟨429,
                Json.obj [("error", Json.str "Too many trace writes"),
                  ("retryAfter",
                   Json.num (deps.limiterRetryAfter req.clientIp))]⟩,
               store)
            else if declaredLengthExceeds deps.maxTraceBodyBytes
                req.contentLength then
              (⟨413, Json.obj [("error", Json.str "Trace payload too large")]⟩,
               store)
            else if decide (deps.maxTraceBodyBytes < req.bodyBytes) then
              (⟨413, Json.obj [("error", Json.str "Trace payload too large")]⟩,
               store)
            else
              match req.body with
              | BodyState.empty =>
                  (⟨400, Json.obj [("error", Json.str "Missing request body")]⟩,
                   store)
              | BodyState.invalidJson =>
                  (⟨400, Json.obj [("error", Json.str "Invalid JSON body")]⟩,
                   store)
              | BodyState.json payload =>
                  if validatePostTracesRequest deps.validUrl payload then
                    (⟨200, upsertOkBody payload⟩, traceUpsert store payload)
                  else
                    (⟨400,
                      Json.obj [("error", Json.str "Invalid trace payload")]⟩,
                     store)

/-- C7.  With store, shared secret and limiter configured and a POST
request: no token header (or an empty one, which the source's falsy check
treats as missing) gives 401; a nonempty token different from the secret
gives 403; the correct token with an allowed client, body within both size
caps and a strict-valid payload gives 200 with an ok/responseId body, and
an identical second write on the resulting store also returns 200. -/
theorem trace_write_auth (deps : WriteDeps) (store : TraceStoreState)
    (req : WriteRequest) (token : String)
    (hStore : deps.storeAvailable = true)
    (hTok : deps.traceToken = Option.some token)
    (hLim : deps.limiterAvailable = true)
    (hPost : req.methodPost = true) :
    (req.tokenHeader = Option.none →
      (handleTraceUpsertRequest deps store req).1.status = 401) ∧
    (∀ v, req.tokenHeader = Option.some v → v ≠ "" → v ≠ token →
      (handleTraceUpsertRequest deps store req).1.status = 403) ∧
    (req.tokenHeader = Option.some token → token ≠ "" →
      deps.limiterAllows req.clientIp = true →
      declaredLengthExceeds deps.maxTraceBodyBytes req.contentLength = false →
      req.bodyBytes ≤ deps.maxTraceBodyBytes →
      ∀ payload, req.body = BodyState.json payload →
      validatePostTracesRequest deps.validUrl payload = true →
      (handleTraceUpsertRequest deps store req).1 = ⟨200, upsertOkBody payload⟩
        ∧ (handleTraceUpsertRequest deps store req).2 =
            traceUpsert store payload
        ∧ (handleTraceUpsertRequest deps
            (handleTraceUpsertRequest deps store req).2 req).1.status =
              200) := by
  refine ⟨?_, ?_, ?_⟩
  · intro hh
    unfold handleTraceUpsertRequest
    rw [hPost, hStore, hTok, hh]
    rfl
  · intro v hh hne hmis
    unfold handleTraceUpsertRequest
    rw [hPost, hStore, hTok, hh]
    simp only [Bool.not_true, Bool.false_eq_true, if_false, if_neg hne,
      if_pos hmis]
  · intro hh hne hAllow hDecl hBytes payload hBody hValid
    have hrun : ∀ st : TraceStoreState,
        handleTraceUpsertRequest deps st req =
          (⟨200, upsertOkBody payload⟩, traceUpsert st payload) := by
      intro st
      unfold handleTraceUpsertRequest
      rw [hPost, hStore, hTok, hh, hBody]
      simp only [Bool.not_true, Bool.false_eq_true, if_false, if_neg hne,
        ite_not, if_pos rfl, hLim, hAllow, hDecl, Bool.not_eq_true,
        not_lt.mpr hBytes, decide_eq_true_eq, hValid, if_pos,
        decide_eq_false, ite_true, ite_false]
    refine ⟨?_, ?_, ?_⟩
    · rw [hrun store]
    · rw [hrun store]
    · rw [hrun store, hrun (traceUpsert store payload)]

/-- A strict-valid payload (no unknown keys) for write-path witnesses. -/
def strictWritePayload : Json :=
  Json.obj [("responseId", Json.str "resp_2"),
            ("provenance", Json.str "Retrieved"),
            ("confidence", Json.num 1),
            ("riskTier", Json.str "Low"),
            ("tradeoffCount", Json.num 2),
            ("chainHash", Json.str "hash_abc"),
            ("licenseContext", Json.str "MIT"),
            ("modelVersion", Json.str "gpt-5"),
            ("staleAfter", Json.str "2030-01-01T00:00:00Z"),
            ("citations", Json.arr [])]

/-- A concrete success-path write request for the C7 witness. -/
def writeRequestExample : WriteRequest :=
  { methodPost := true
    tokenHeader := Option.some "secret_token"
    clientIp := "10.0.0.1"
    contentLength := Option.some 500
    bodyBytes := 500
    body := BodyState.json strictWritePayload }

/-- Concrete write-handler dependencies for the C7 witness. -/
def writeDepsExample : WriteDeps :=
  { storeAvailable := true
    traceToken := Option.some "secret_token"
    limiterAvailable := true
    limiterAllows := fun _ => true
    limiterRetryAfter := fun _ => 60
    maxTraceBodyBytes := 1024
    validUrl := fun _ => true }

/-- C7 witness: missing token gives 401, wrong token gives 403, and the
correct token with a strict-valid payload gives 200 twice in a row. -/
theorem trace_write_auth_witness :
    (handleTraceUpsertRequest writeDepsExample []
        { writeRequestExample with tokenHeader := Option.none }).1.status =
      401 ∧
    (handleTraceUpsertRequest writeDepsExample []
        { writeRequestExample with
            tokenHeader := Option.some "wrong" }).1.status = 403 ∧
    (handleTraceUpsertRequest writeDepsExample []
        writeRequestExample).1.status = 200 ∧
    (handleTraceUpsertRequest writeDepsExample
        (handleTraceUpsertRequest writeDepsExample [] writeRequestExample).2
        writeRequestExample).1.status = 200 := by
  have hsucc := (trace_write_auth writeDepsExample [] writeRequestExample
    "secret_token" rfl rfl rfl rfl).2.2 rfl (by decide) rfl rfl (by decide)
    strictWritePayload rfl (by decide)
  refine ⟨?_, ?_, ?_, hsucc.2.2⟩
  · exact (trace_write_auth writeDepsExample []
      { writeRequestExample with tokenHeader := Option.none }
      "secret_token" rfl rfl rfl rfl).1 rfl
  · exact (trace_write_auth writeDepsExample []
      { writeRequestExample with tokenHeader := Option.some "wrong" }
      "secret_token" rfl rfl rfl rfl).2.1 "wrong" rfl (by decide) (by decide)
  · rw [hsucc.1]

/-! Alternative-lens sessions (provenanceInteractions.ts lines 39-452). -/

/-- The six lens keys of the catalogue. -/
inductive AlternativeLensKey where
  | DANEEL | UTILITARIAN | DEONTOLOGICAL | VIRTUE_ETHICS | EASTERN | CUSTOM
deriving DecidableEq

/-- AlternativeLensContext: the snapshot captured at session creation. -/
structure AlternativeLensContext where
  messageText : String
  metadata : Option Json
  messageId : String
  channelId : String
  responseId : Option String

/-- AlternativeLensSession: context snapshot plus the user's selection. -/
structure AlternativeLensSession where
  context : AlternativeLensContext
  selectedLensKey : Option AlternativeLensKey
  customDescription : Option String

/-- One static catalogue entry (AlternativeLensDefinition); the optional
requiresCustomDescription flag defaults to false when absent. -/
structure AlternativeLensDefinition where
  key : AlternativeLensKey
  label : String
  description : String
  requiresCustomDescription : Bool

/-- The static LENS_DEFINITIONS catalogue (source lines 93-128). -/
def LENS_DEFINITIONS : List AlternativeLensDefinition :=
  [{ key := AlternativeLensKey.DANEEL,
     label := "Asimovian (Daneel character)",
     description := "Channel Daneel Olivaw: state clean facts, guard human welfare, and apply Zeroth Law judgment.",
     requiresCustomDescription := false },
   { key := AlternativeLensKey.UTILITARIAN,
     label := "Utilitarian",
     description := "Prioritise overall outcomes and collective wellbeing.",
     requiresCustomDescription := false },
   { key := AlternativeLensKey.DEONTOLOGICAL,
     label := "Deontological",
     description := "Emphasise duties, rules, and principled obligations.",
     requiresCustomDescription := false },
   { key := AlternativeLensKey.VIRTUE_ETHICS,
     label := "Virtue Ethics",
     description := "Highlight character, cultivation of virtues, and moral exemplars.",
     requiresCustomDescription := false },
   { key := AlternativeLensKey.EASTERN,
     label := "Eastern Philosophy",
     description := "Incorporate perspectives rooted in Confucian, Buddhist, or Daoist thought.",
     requiresCustomDescription := false },
   { key := AlternativeLensKey.CUSTOM,
     label := "Custom Lens",
     description := "Provide your own framing or perspective.",
     requiresCustomDescription := true }]

/-- Catalogue lookup (source lines 339-343). -/
def getAlternativeLensDefinition (key : AlternativeLensKey) :
    Option AlternativeLensDefinition :=
  LENS_DEFINITIONS.find? (fun lens => lens.key = key)

/-- The resolved lens payload handed to generation. -/
structure AlternativeLensPayload where
  key : AlternativeLensKey
  label : String
  description : String

/-- Model of buildLensPayload (source lines 422-452): requires a selected
key present in the catalogue; for CUSTOM, additionally a truthy (nonempty)
custom description, which then becomes the payload description. -/
def buildLensPayload (session : AlternativeLensSession) :
    Option AlternativeLensPayload :=
  match session.selectedLensKey with
  | Option.none => Option.none
  | Option.some key =>
      match getAlternativeLensDefinition key with
      | Option.none => Option.none
      | Option.some definition =>
          if definition.key = AlternativeLensKey.CUSTOM then
            match session.customDescription with
            | Option.none => Option.none
            | Option.some d =>
                if d = "" then Option.none
                else Option.some ⟨definition.key, definition.label, d⟩
          else
            Option.some
              ⟨definition.key, definition.label, definition.description⟩

/-- The per-process session map (the `sessions` Map keyed by
"userId:messageId"). -/
def SessionMap : Type := List (String × AlternativeLensSession)

/-- Session key construction (source lines 141-144). -/
def buildAlternativeLensSessionKey (userId messageId : String) : String :=
  userId ++ ":" ++ messageId

/-- Model of setAlternativeLensSelection (source lines 364-378): look up
the session; if absent return undefined and leave the map unchanged; else
set selectedLensKey and, when the key is not CUSTOM, null out
customDescription; return the mutated session. -/
def setAlternativeLensSelection (sessions : SessionMap) (sessionKey : String)
    (lensKey : AlternativeLensKey) :
    Option AlternativeLensSession × SessionMap :=
  match getAssoc sessionKey sessions with
  | Option.none => (Option.none, sessions)
  | Option.some session =>
      let updated : AlternativeLensSession :=
        { session with
            selectedLensKey := Option.some lensKey
            customDescription :=
              if lensKey = AlternativeLensKey.CUSTOM then
                session.customDescription
              else Option.none }
      (Option.some updated, setAssoc sessionKey updated sessions)

/-- C10.  setAlternativeLensSelection on an existing session stores the
given key, resets customDescription to null exactly when the key is not
CUSTOM (keeping it for CUSTOM), never touches the context snapshot, and on
a missing session returns undefined and changes nothing. -/
theorem set_lens_selection_effects (sessions : SessionMap)
    (sessionKey : String) (lensKey : AlternativeLensKey) :
    (getAssoc sessionKey sessions = Option.none →
      setAlternativeLensSelection sessions sessionKey lensKey =
        (Option.none, sessions)) ∧
    (∀ session, getAssoc sessionKey sessions = Option.some session →
      ∃ updated,
        setAlternativeLensSelection sessions sessionKey lensKey =
          (Option.some updated, setAssoc sessionKey updated sessions) ∧
        updated.selectedLensKey = Option.some lensKey ∧
        updated.context = session.context ∧
        (lensKey = AlternativeLensKey.CUSTOM →
          updated.customDescription = session.customDescription) ∧
        (lensKey ≠ AlternativeLensKey.CUSTOM →
          updated.customDescription = Option.none)) := by
  constructor
  · intro hnone
    unfold setAlternativeLensSelection
    rw [hnone]
  · intro session hsome
    unfold setAlternativeLensSelection
    rw [hsome]
    refine ⟨_, rfl, rfl, rfl, ?_, ?_⟩
    · intro hc
      simp [hc]
    · intro hc
      simp [hc]

/-- A concrete session with a saved custom description. -/
def sessionExample : AlternativeLensSession :=
  { context := { messageText := "original reply"
                 metadata := Option.none
                 messageId := "msg_1"
                 channelId := "chan_1"
                 responseId := Option.some "resp_1" }
    selectedLensKey := Option.some AlternativeLensKey.CUSTOM
    customDescription := Option.some "through an ecological lens" }

/-- C10 witness: selecting UTILITARIAN on the concrete session keeps the
context, stores the key and discards the custom description. -/
theorem set_lens_selection_effects_witness :
    ∃ updated,
      setAlternativeLensSelection [("user:msg_1", sessionExample)]
          "user:msg_1" AlternativeLensKey.UTILITARIAN =
        (Option.some updated,
         setAssoc "user:msg_1" updated [("user:msg_1", sessionExample)]) ∧
      updated.selectedLensKey =
        Option.some AlternativeLensKey.UTILITARIAN ∧
      updated.context = sessionExample.context ∧
      (AlternativeLensKey.UTILITARIAN = AlternativeLensKey.CUSTOM →
        updated.customDescription = sessionExample.customDescription) ∧
      (AlternativeLensKey.UTILITARIAN ≠ AlternativeLensKey.CUSTOM →
        updated.customDescription = Option.none) :=
  (set_lens_selection_effects [("user:msg_1", sessionExample)] "user:msg_1"
    AlternativeLensKey.UTILITARIAN).2 sessionExample rfl

/-! The submit handler handleAlternativeLensSubmit (source lines
1279-1518) and the alternativeLensInProgress guard set. -/

/-- Membership in a guard set (Set.has). -/
def guardHas (guards : List String) (id : String) : Bool :=
  guards.any (fun x => x = id)

/-- Addition to a guard set (Set.add). -/
def guardAdd (guards : List String) (id : String) : List String :=
  if guardHas guards id then guards else id :: guards

/-- Removal from a guard set (Set.delete). -/
def guardRemove (guards : List String) (id : String) : List String :=
  guards.filter (fun x => x ≠ id)

theorem guardHas_guardRemove (guards : List String) (id : String) :
    guardHas (guardRemove guards id) id = false := by
  rw [guardHas, List.any_eq_false]
  intro x hx
  have := (List.mem_filter.mp hx).2
  simpa using this

/-- Outcomes of the external calls awaited by the submit handler: the
in-progress acknowledgment reply (line 1391), the planner and the
generation call (lines 1419-1438), channel sendability (line 1441) and the
result posting (lines 1483/1491).  Failures of the later calls all route
through the outer catch; the finally block runs in every case. -/
structure SubmitEnv where
  ackOk : Bool
  plannerOk : Bool
  generationOk : Bool
  channelSendable : Bool
  sendOk : Bool

/-- The observable outcome of one submit invocation. -/
inductive SubmitResult where
  | noSession | noMessageText | noLens | alreadyInProgress | ackFailed
  | generationFailed | channelUnsendable | completed

/-- Model of handleAlternativeLensSubmit (source lines 1279-1518): session
lookup, message-text and lens-payload preconditions, the synchronous
guard check-and-set (lines 1363-1380), the acknowledgment reply whose
failure clears only the guard (lines 1390-1416), then the try/catch whose
finally clears both the session and the guard (lines 1514-1517). -/
def handleAlternativeLensSubmit (env : SubmitEnv) (userId messageId : String)
    (sessions : SessionMap) (guards : List String) :
    SessionMap × List String × SubmitResult :=
  let sessionKey := buildAlternativeLensSessionKey userId messageId
  match getAssoc sessionKey sessions with
  | Option.none => (sessions, guards, SubmitResult.noSession)
  | Option.some session =>
      if session.context.messageText = "" then
        (removeAssoc sessionKey sessions, guards, SubmitResult.noMessageText)
      else
        match buildLensPayload session with
        | Option.none => (sessions, guards, SubmitResult.noLens)
        | Option.some _ =>
            if guardHas guards messageId then
              (sessions, guards, SubmitResult.alreadyInProgress)
            else
              let marked := guardAdd guards messageId
              if !env.ackOk then
                (sessions, guardRemove marked messageId,
                 SubmitResult.ackFailed)
              else
                let result :=
                  if !env.plannerOk || !env.generationOk then
                    SubmitResult.generationFailed
                  else if !env.channelSendable then
                    SubmitResult.channelUnsendable
                  else if !env.sendOk then SubmitResult.generationFailed
                  else SubmitResult.completed
                (removeAssoc sessionKey sessions,
                 guardRemove marked messageId, result)

/-- C4.  When the submit handler passes its preconditions (existing
session with message text, resolved lens payload, guard not set) and the
in-progress acknowledgment succeeds, then after the handler completes —
whatever the outcomes of generation and result posting — the session under
the (userId, messageId) key and the guard entry for messageId are both
absent. -/
theorem submit_cleanup (env : SubmitEnv) (userId messageId : String)
    (sessions : SessionMap) (guards : List String)
    (session : AlternativeLensSession)
    (hs : getAssoc (buildAlternativeLensSessionKey userId messageId)
        sessions = Option.some session)
    (htext : session.context.messageText ≠ "")
    (hlens : (buildLensPayload session).isSome = true)
    (hguard : guardHas guards messageId = false)
    (hack : env.ackOk = true) :
    getAssoc (buildAlternativeLensSessionKey userId messageId)
        (handleAlternativeLensSubmit env userId messageId sessions
          guards).1 = Option.none ∧
    guardHas (handleAlternativeLensSubmit env userId messageId sessions
        guards).2.1 messageId = false := by
  cases hlp : buildLensPayload session with
  | none => rw [hlp] at hlens; cases hlens
  | some lens =>
      simp only [handleAlternativeLensSubmit, hs, hlp, if_neg htext, hguard,
        Bool.false_eq_true, if_false, hack, Bool.not_true]
      exact ⟨getAssoc_removeAssoc sessions _,
        guardHas_guardRemove (guardAdd guards messageId) messageId⟩

/-- A session whose lens payload resolves (UTILITARIAN selected). -/
def readySessionExample : AlternativeLensSession :=
  { context := { messageText := "original reply"
                 metadata := Option.none
                 messageId := "msg_1"
                 channelId := "chan_1"
                 responseId := Option.none }
    selectedLensKey := Option.some AlternativeLensKey.UTILITARIAN
    customDescription := Option.none }

/-- An environment in which generation throws after a successful
acknowledgment. -/
def failingGenerationEnv : SubmitEnv :=
  { ackOk := true, plannerOk := true, generationOk := false,
    channelSendable := true, sendOk := true }

/-- C4 witness: with a ready session and failing generation, both the
session and the guard are gone after the handler completes. -/
theorem submit_cleanup_witness :
    getAssoc (buildAlternativeLensSessionKey "user" "msg_1")
        (handleAlternativeLensSubmit failingGenerationEnv "user" "msg_1"
          [("user:msg_1", readySessionExample)] []).1 = Option.none ∧
    guardHas (handleAlternativeLensSubmit failingGenerationEnv "user"
        "msg_1" [("user:msg_1", readySessionExample)] []).2.1 "msg_1" =
      false :=
  submit_cleanup failingGenerationEnv "user" "msg_1"
    [("user:msg_1", readySessionExample)] [] readySessionExample rfl
    (by decide) rfl rfl rfl

/-! Event-loop interleaving model for the submit guard.  A submit
invocation's code between two awaits runs atomically on the single
JavaScript thread.  On the path that passes the guard, source lines
1293-1380 (session lookup through markAlternativeLensInProgress) contain
no await, so the guard check (line 1363) and the guard set (line 1380) are
one atomic step; the awaits at lines 1391 and 1418-1497 and the finally
(lines 1514-1517) delimit the later steps. -/

/-- Program counter of one submit invocation, one state per synchronous
section: entry (everything up to and including the guard check-and-set),
marked (guard set, acknowledgment pending), generating (orchestrator
invoked), and the terminal states. -/
inductive SubmitPC where
  | entry | marked | generating | doneBusy | doneFailed | doneOk
deriving DecidableEq

/-- One submit invocation: its program counter, whether its preconditions
(session, text, lens payload) hold, whether its acknowledgment reply will
succeed, and whether it has invoked the generation orchestrator. -/
structure SubmitProc where
  pc : SubmitPC
  preOk : Bool
  ackOk : Bool
  invoked : Bool

/-- One atomic step of a submit invocation for message id `id` against the
shared guard set: entry either fails a precondition, observes the guard
and replies busy, or passes and sets the guard in the same step; marked
either proceeds to invoke generation or clears the guard on
acknowledgment failure; generating finishes and the finally clears the
guard; terminal states do not move. -/
def stepProc (id : String) (g : List String) (p : SubmitProc) :
    List String × SubmitProc :=
  match p.pc with
  | SubmitPC.entry =>
      if !p.preOk then (g, { p with pc := SubmitPC.doneFailed })
      else if guardHas g id then (g, { p with pc := SubmitPC.doneBusy })
      else (guardAdd g id, { p with pc := SubmitPC.marked })
  | SubmitPC.marked =>
      if p.ackOk then
        (g, { p with pc := SubmitPC.generating, invoked := true })
      else (guardRemove g id, { p with pc := SubmitPC.doneFailed })
  | SubmitPC.generating =>
      (guardRemove g id, { p with pc := SubmitPC.doneOk })
  | _ => (g, p)

/-- A configuration: the shared guard set and two submit invocations for
the same message id. -/
structure SubmitConfig where
  guard : List String
  p1 : SubmitProc
  p2 : SubmitProc

/-- Scheduler step: true steps the first invocation, false the second. -/
def stepConfig (id : String) (c : SubmitConfig) (choice : Bool) :
    SubmitConfig :=
  if choice then
    let r := stepProc id c.guard c.p1
    ⟨r.1, r.2, c.p2⟩
  else
    let r := stepProc id c.guard c.p2
    ⟨r.1, c.p1, r.2⟩

/-- Run a finite interleaving. -/
def runSched (id : String) (sched : List Bool) (c : SubmitConfig) :
    SubmitConfig :=
  sched.foldl (stepConfig id) c

/-- An invocation holds the guard region between setting and clearing it. -/
def inRegion (p : SubmitProc) : Prop :=
  p.pc = SubmitPC.marked ∨ p.pc = SubmitPC.generating

instance (p : SubmitProc) : Decidable (inRegion p) := by
  unfold inRegion; infer_instance

/-- The mutual-exclusion invariant: whoever is in the region holds the
guard, and the two invocations are never in the region together. -/
def MutexInv (id : String) (c : SubmitConfig) : Prop :=
  (inRegion c.p1 → guardHas c.guard id = true) ∧
  (inRegion c.p2 → guardHas c.guard id = true) ∧
  ¬(inRegion c.p1 ∧ inRegion c.p2)

theorem guardHas_guardAdd (g : List String) (id : String) :
    guardHas (guardAdd g id) id = true := by
  unfold guardAdd
  by_cases h : guardHas g id = true
  · simp [h]
  · simp only [h, if_false, Bool.false_eq_true]
    simp [guardHas]

theorem stepProc_preserves (id : String) (g : List String)
    (p q : SubmitProc) (hp : inRegion p → guardHas g id = true)
    (hq : inRegion q → guardHas g id = true)
    (hx : ¬(inRegion p ∧ inRegion q)) :
    (inRegion (stepProc id g p).2 →
      guardHas (stepProc id g p).1 id = true) ∧
    (inRegion q → guardHas (stepProc id g p).1 id = true) ∧
    ¬(inRegion (stepProc id g p).2 ∧ inRegion q) := by
  cases hpc : p.pc with
  | entry =>
      have hpnot : ¬ inRegion p := by
        intro hr
        rcases hr with h | h <;> rw [hpc] at h <;> cases h
      by_cases hpre : p.preOk = true
      · by_cases hg : guardHas g id = true
        · simp only [stepProc, hpc, hpre, Bool.not_true, Bool.false_eq_true,
            if_false, hg, if_true]
          refine ⟨fun _ => trivial, fun _ => trivial, ?_⟩
          intro ⟨h1, _⟩
          rcases h1 with h | h <;> cases h
        · have hq2 : ¬ inRegion q := fun hr => hg (hq hr)
          simp only [stepProc, hpc, hpre, Bool.not_true, Bool.false_eq_true,
            if_false, hg]
          refine ⟨fun _ => guardHas_guardAdd g id,
            fun hr => absurd hr hq2, ?_⟩
          intro ⟨_, h2⟩
          exact hq2 h2
      · have hpre' : p.preOk = false := by
          cases hb : p.preOk
          · rfl
          · exact absurd hb hpre
        simp only [stepProc, hpc, hpre', Bool.not_false, if_true]
        refine ⟨?_, hq, ?_⟩
        · intro hr
          rcases hr with h | h <;> cases h
        · intro ⟨h1, h2⟩
          rcases h1 with h | h <;> cases h
  | marked =>
      have hpr : inRegion p := Or.inl hpc
      have hq2 : ¬ inRegion q := fun hr => hx ⟨hpr, hr⟩
      by_cases hak : p.ackOk = true
      · simp only [stepProc, hpc, hak, if_true]
        refine ⟨fun _ => hp hpr, fun hr => absurd hr hq2, ?_⟩
        intro ⟨_, h2⟩
        exact hq2 h2
      · have hak' : p.ackOk = false := by
          cases hb : p.ackOk
          · rfl
          · exact absurd hb hak
        simp only [stepProc, hpc, hak', Bool.false_eq_true, if_false]
        refine ⟨?_, fun hr => absurd hr hq2, ?_⟩
        · intro hr
          rcases hr with h | h <;> cases h
        · intro ⟨h1, _⟩
          rcases h1 with h | h <;> cases h
  | generating =>
      have hpr : inRegion p := Or.inr hpc
      have hq2 : ¬ inRegion q := fun hr => hx ⟨hpr, hr⟩
      simp only [stepProc, hpc]
      refine ⟨?_, fun hr => absurd hr hq2, ?_⟩
      · intro hr
        rcases hr with h | h <;> cases h
      · intro ⟨h1, _⟩
        rcases h1 with h | h <;> cases h
  | doneBusy =>
      simp only [stepProc, hpc]
      exact ⟨hp, hq, hx⟩
  | doneFailed =>
      simp only [stepProc, hpc]
      exact ⟨hp, hq, hx⟩
  | doneOk =>
      simp only [stepProc, hpc]
      exact ⟨hp, hq, hx⟩

theorem stepConfig_preserves (id : String) (c : SubmitConfig)
    (choice : Bool) (h : MutexInv id c) :
    MutexInv id (stepConfig id c choice) := by
  obtain ⟨h1, h2, hx⟩ := h
  cases choice with
  | true =>
      have := stepProc_preserves id c.guard c.p1 c.p2 h1 h2 hx
      exact ⟨this.1, this.2.1, this.2.2⟩
  | false =>
      have := stepProc_preserves id c.guard c.p2 c.p1 h2 h1
        (fun ⟨a, b⟩ => hx ⟨b, a⟩)
      exact ⟨this.2.1, this.1, fun ⟨a, b⟩ => this.2.2 ⟨b, a⟩⟩

theorem runSched_preserves (id : String) (sched : List Bool)
    (c : SubmitConfig) (h : MutexInv id c) :
    MutexInv id (runSched id sched c) := by
  induction sched generalizing c with
  | nil => exact h
  | cons choice rest ih =>
      exact ih (stepConfig id c choice) (stepConfig_preserves id c choice h)

/-- C3.  Two submit invocations for the same message id never both hold
the in-progress region: (a) an invocation whose entry step (the atomic
check-and-set of source lines 1363-1380) observes the guard already set
moves straight to the busy reply without marking the guard or invoking the
orchestrator; (b) under every interleaving of atomic steps from a state
where both invocations are at entry, the two are never simultaneously
between guard set and guard clear, so they never both start generation. -/
theorem alt_lens_submit_mutual_exclusion (id : String) :
    (∀ (g : List String) (p : SubmitProc), p.pc = SubmitPC.entry →
      p.preOk = true → guardHas g id = true →
      stepProc id g p = (g, { p with pc := SubmitPC.doneBusy })) ∧
    (∀ (sched : List Bool) (g₀ : List String) (q1 q2 : SubmitProc),
      q1.pc = SubmitPC.entry → q2.pc = SubmitPC.entry →
      ¬(inRegion (runSched id sched ⟨g₀, q1, q2⟩).p1 ∧
        inRegion (runSched id sched ⟨g₀, q1, q2⟩).p2)) := by
  constructor
  · intro g p hpc hpre hg
    simp only [stepProc, hpc, hpre, Bool.not_true, Bool.false_eq_true,
      if_false, hg, if_true]
  · intro sched g₀ q1 q2 h1 h2
    have hinit : MutexInv id ⟨g₀, q1, q2⟩ := by
      refine ⟨?_, ?_, ?_⟩
      · intro hr
        rcases hr with h | h <;> rw [h1] at h <;> cases h
      · intro hr
        rcases hr with h | h <;> rw [h2] at h <;> cases h
      · intro ⟨ha, _⟩
        rcases ha with h | h <;> rw [h1] at h <;> cases h
    exact (runSched_preserves id sched ⟨g₀, q1, q2⟩ hinit).2.2

/-- C3 witness: a concrete second invocation at entry, with the guard
already set by the first, steps to the busy reply leaving the guard
unchanged; and the empty schedule keeps two fresh entry invocations out of
the region. -/
theorem alt_lens_submit_mutual_exclusion_witness :
    stepProc "msg_1" ["msg_1"]
        { pc := SubmitPC.entry, preOk := true, ackOk := true,
          invoked := false } =
      (["msg_1"],
       { pc := SubmitPC.doneBusy, preOk := true, ackOk := true,
         invoked := false }) ∧
    ¬(inRegion (runSched "msg_1" []
        ⟨[], { pc := SubmitPC.entry, preOk := true, ackOk := true,
               invoked := false },
              { pc := SubmitPC.entry, preOk := true, ackOk := true,
                invoked := false }⟩).p1 ∧
      inRegion (runSched "msg_1" []
        ⟨[], { pc := SubmitPC.entry, preOk := true, ackOk := true,
               invoked := false },
              { pc := SubmitPC.entry, preOk := true, ackOk := true,
                invoked := false }⟩).p2) :=
  ⟨(alt_lens_submit_mutual_exclusion "msg_1").1 ["msg_1"]
      { pc := SubmitPC.entry, preOk := true, ackOk := true,
        invoked := false } rfl rfl rfl,
   (alt_lens_submit_mutual_exclusion "msg_1").2 [] []
      { pc := SubmitPC.entry, preOk := true, ackOk := true,
        invoked := false }
      { pc := SubmitPC.entry, preOk := true, ackOk := true,
        invoked := false } rfl rfl⟩

/-! Message anchor resolution (provenanceInteractions.ts lines 792-870).
Discord messages are modelled with the fields the resolver inspects. -/

/-- The slice of a Discord message the anchor logic reads: author,
content, embed and component counts, the threaded-reply reference and the
creation timestamp in milliseconds. -/
structure Msg where
  id : String
  authorId : String
  content : String
  embedsCount : Nat
  componentsCount : Nat
  refMessageId : Option String
  createdTimestamp : Int

/-- Model of JavaScript String.prototype.trim over the character list:
drop whitespace from the front, then from the back. -/
def jsTrim (s : String) : String :=
  String.mk
    (List.rdropWhile Char.isWhitespace (s.data.dropWhile Char.isWhitespace))

/-- MAX_PRECEDING_RESPONSE_MESSAGES (source line 138). -/
def maxPrecedingResponseMessages : Nat := 16

/-- MAX_RESPONSE_CHAIN_WINDOW_MS (source line 139). -/
def maxResponseChainWindowMs : Int := 2 * 60000

/-- Stable insertion for the descending-timestamp sort. -/
def insertDesc (m : Msg) : List Msg → List Msg
  | [] => [m]
  | x :: xs =>
      if m.createdTimestamp ≤ x.createdTimestamp then x :: insertDesc m xs
      else m :: x :: xs

/-- Model of `.sort((a, b) => b.createdTimestamp - a.createdTimestamp)`
on the fetched collection (source lines 840-842). -/
def sortByCreatedDesc : List Msg → List Msg
  | [] => []
  | x :: xs => insertDesc x (sortByCreatedDesc xs)

/-- Newest-first ordering: strictly decreasing creation timestamps. -/
def NewestFirst (l : List Msg) : Prop :=
  List.Pairwise (fun a b => b.createdTimestamp < a.createdTimestamp) l

theorem insertDesc_front (m : Msg) (l : List Msg)
    (h : ∀ y ∈ l, y.createdTimestamp < m.createdTimestamp) :
    insertDesc m l = m :: l := by
  cases l with
  | nil => rfl
  | cons x xs =>
      have hx := h x (List.mem_cons_self x xs)
      rw [insertDesc, if_neg (not_le.mpr hx)]

theorem sortByCreatedDesc_of_sorted (l : List Msg) (h : NewestFirst l) :
    sortByCreatedDesc l = l := by
  induction l with
  | nil => rfl
  | cons x xs ih =>
      rw [NewestFirst, List.pairwise_cons] at h
      rw [sortByCreatedDesc, ih h.2, insertDesc_front x xs h.1]

/-- The scan loop of resolveResponseAnchorMessage (source lines 844-861):
walk candidates newest-first, stop at the first non-bot message or the
first message carrying embeds or components, return the first candidate
with nonempty trimmed content, skipping content-free candidates. -/
def scanForAnchor (botId : String) : List Msg → Option Msg
  | [] => Option.none
  | m :: rest =>
      if m.authorId ≠ botId then Option.none
      else if 0 < m.embedsCount ∨ 0 < m.componentsCount then Option.none
      else if jsTrim m.content ≠ "" then Option.some m
      else scanForAnchor botId rest

/-- Model of resolveResponseAnchorMessage (source lines 792-870) for a
text-based channel with a known bot id.  `fetchReferenced` models
messages.fetch of the replied-to id (none on failure, after which the
source falls through to the scan); `historyFetchOk` models whether
messages.fetch of the preceding window succeeds; `history` is the channel
content strictly before the footer, newest-first, of which the fetch
returns at most 16. -/
def resolveResponseAnchorMessage (botId : String)
    (fetchReferenced : String → Option Msg) (historyFetchOk : Bool)
    (history : List Msg) (footer : Msg) : Option Msg :=
  let scanned :=
    if !historyFetchOk then Option.none
    else
      scanForAnchor botId
        (sortByCreatedDesc (history.take maxPrecedingResponseMessages))
  if jsTrim footer.content ≠ "" then Option.some footer
  else
    match footer.refMessageId with
    | Option.some rid =>
        match fetchReferenced rid with
        | Option.some referenced => Option.some referenced
        | Option.none => scanned
    | Option.none => scanned

/-- Any anchor produced by the scan is a bot-authored element of the
scanned window with plain nonempty content and no embeds or components. -/
theorem scanForAnchor_sound (botId : String) (l : List Msg) (m : Msg)
    (h : scanForAnchor botId l = Option.some m) :
    m ∈ l ∧ m.authorId = botId ∧ jsTrim m.content ≠ "" ∧
      m.embedsCount = 0 ∧ m.componentsCount = 0 := by
  induction l with
  | nil => cases h
  | cons x xs ih =>
      rw [scanForAnchor] at h
      by_cases ha : x.authorId ≠ botId
      · rw [if_pos ha] at h; cases h
      · rw [if_neg ha] at h
        by_cases he : 0 < x.embedsCount ∨ 0 < x.componentsCount
        · rw [if_pos he] at h; cases h
        · rw [if_neg he] at h
          push_neg at he
          by_cases hc : jsTrim x.content ≠ ""
          · rw [if_pos hc] at h
            injection h with hxm
            subst hxm
            refine ⟨List.mem_cons_self _ _, not_not.mp ha, hc, ?_, ?_⟩
            · omega
            · omega
          · rw [if_neg hc] at h
            obtain ⟨hm, hauth, hcon, hemb, hcomp⟩ := ih h
            exact ⟨List.mem_cons_of_mem x hm, hauth, hcon, hemb, hcomp⟩

/-- C5.  Anchor resolution for a footer message: (1) nonempty trimmed
footer content makes the footer itself the anchor; (2) else a threaded
reply whose referenced message resolves is the anchor; (3) else, with the
history fetch succeeding on a newest-first channel, the result is the
scan of at most 16 preceding messages, which stops at the first non-bot
or embed/component-bearing message and yields the first plain-content bot
message (none otherwise, as scanForAnchor_sound makes precise). -/
theorem anchor_resolution_cases (botId : String)
    (fetchReferenced : String → Option Msg) (historyFetchOk : Bool)
    (history : List Msg) (footer : Msg)
    (hsorted : NewestFirst history) :
    (jsTrim footer.content ≠ "" →
      resolveResponseAnchorMessage botId fetchReferenced historyFetchOk
        history footer = Option.some footer) ∧
    (jsTrim footer.content = "" →
      ∀ rid r, footer.refMessageId = Option.some rid →
        fetchReferenced rid = Option.some r →
        resolveResponseAnchorMessage botId fetchReferenced historyFetchOk
          history footer = Option.some r) ∧
    (jsTrim footer.content = "" → footer.refMessageId = Option.none →
      historyFetchOk = true →
      resolveResponseAnchorMessage botId fetchReferenced historyFetchOk
        history footer =
        scanForAnchor botId (history.take maxPrecedingResponseMessages)) := by
  refine ⟨?_, ?_, ?_⟩
  · intro hc
    simp only [resolveResponseAnchorMessage, if_pos hc]
  · intro hc rid r href hfetch
    simp only [resolveResponseAnchorMessage, hc, ne_eq, not_true_eq_false,
      if_false, href, hfetch]
  · intro hc href hok
    have htake : NewestFirst (history.take maxPrecedingResponseMessages) :=
      List.Pairwise.sublist (List.take_sublist _ _) hsorted
    simp only [resolveResponseAnchorMessage, hc, ne_eq, not_true_eq_false,
      if_false, href, hok, Bool.not_true, Bool.false_eq_true,
      sortByCreatedDesc_of_sorted _ htake]

/-- Concrete messages for the C5 witness: a bot footer with no content and
no reference, preceded by a content-bearing bot message. -/
def footerExample : Msg :=
  { id := "f1", authorId := "bot", content := "", embedsCount := 0,
    componentsCount := 1, refMessageId := Option.none,
    createdTimestamp := 2000 }

/-- The plain bot reply directly above the footer. -/
def replyChunkExample : Msg :=
  { id := "m1", authorId := "bot", content := "the reply text",
    embedsCount := 0, componentsCount := 0, refMessageId := Option.none,
    createdTimestamp := 1900 }

/-- C5 witness: with an empty-content, reference-free footer, resolution
scans the preceding window and finds the plain bot reply. -/
theorem anchor_resolution_cases_witness :
    resolveResponseAnchorMessage "bot" (fun _ => Option.none) true
        [replyChunkExample] footerExample =
      scanForAnchor "bot" ([replyChunkExample].take
        maxPrecedingResponseMessages) :=
  (anchor_resolution_cases "bot" (fun _ => Option.none) true
    [replyChunkExample] footerExample (by simp [NewestFirst])).2.2
    rfl rfl rfl

/-! Full-text recovery (provenanceInteractions.ts lines 872-953). -/

theorem dropWhile_rdropWhile_dropWhile (p : Char → Bool) (l : List Char) :
    List.dropWhile p (List.rdropWhile p (List.dropWhile p l)) =
      List.rdropWhile p (List.dropWhile p l) := by
  cases hr : List.rdropWhile p (List.dropWhile p l) with
  | nil => rfl
  | cons a r =>
      have hpre := List.rdropWhile_prefix p (List.dropWhile p l)
      rw [hr] at hpre
      obtain ⟨t, ht⟩ := hpre
      have hA : (List.dropWhile p l).head? = Option.some a := by
        rw [← ht]; rfl
      have hfa : p a = false := by
        have h2 := List.head?_dropWhile_not p l
        rw [hA] at h2
        exact h2
      simp [List.dropWhile_cons, hfa]

theorem jsTrim_idem (s : String) : jsTrim (jsTrim s) = jsTrim s := by
  have hdata : ∀ l : List Char, (String.mk l).data = l := fun _ => rfl
  unfold jsTrim
  rw [hdata, dropWhile_rdropWhile_dropWhile, List.rdropWhile_idempotent]

/-- The backward walk of recoverFullMessageText (source lines 912-944):
collect trimmed contents newest-first, stopping at a non-bot author, at
embeds or components, at empty content, at a candidate older than the
2-minute window, and stopping after including a candidate that is itself
a threaded reply. -/
def collectChunks (botId : String) (anchorTs : Int) : List Msg → List String
  | [] => []
  | m :: rest =>
      if m.authorId ≠ botId then []
      else if 0 < m.embedsCount ∨ 0 < m.componentsCount then []
      else if jsTrim m.content = "" then []
      else if maxResponseChainWindowMs < anchorTs - m.createdTimestamp then []
      else if m.refMessageId.isSome then [jsTrim m.content]
      else jsTrim m.content :: collectChunks botId anchorTs rest

/-- JavaScript Array.prototype.join with separator blank line. -/
def joinChunks : List String → String
  | [] => ""
  | [c] => c
  | c :: rest => c ++ "\n\n" ++ joinChunks rest

/-- The chunk list seeded with the anchor's own trimmed content (source
lines 888-892: unshift only when truthy). -/
def anchorChunkList (anchor : Msg) : List String :=
  if jsTrim anchor.content = "" then [] else [jsTrim anchor.content]

/-- Model of recoverFullMessageText (source lines 872-953) given a
resolved anchor, for a text-based channel with a known bot id: a
reply-bearing anchor with content short-circuits; a history fetch failure
returns what was accumulated; otherwise the backward walk's chunks are
prepended (hence chronological order after the newest-first walk), joined
with blank lines and trimmed.  `history` is the channel content strictly
before the anchor, newest-first; the fetch returns at most 16 of it. -/
def recoverFullMessageText (botId : String) (anchor : Msg)
    (historyFetchOk : Bool) (history : List Msg) : String :=
  if anchor.refMessageId.isSome ∧ anchorChunkList anchor ≠ [] then
    jsTrim (joinChunks (anchorChunkList anchor))
  else if !historyFetchOk then jsTrim (joinChunks (anchorChunkList anchor))
  else
    jsTrim (joinChunks
      ((collectChunks botId anchor.createdTimestamp
          (sortByCreatedDesc
            (history.take maxPrecedingResponseMessages))).reverse ++
        anchorChunkList anchor))

theorem jsTrim_joinChunks_anchor (anchor : Msg) :
    jsTrim (joinChunks (anchorChunkList anchor)) = jsTrim anchor.content := by
  unfold anchorChunkList
  by_cases hc : jsTrim anchor.content = ""
  · rw [if_pos hc, hc]
    rfl
  · rw [if_neg hc]
    exact jsTrim_idem anchor.content

/-- Every chunk gathered by the backward walk comes from a bot-authored
message of the walked window whose age relative to the anchor is within
the 2-minute bound. -/
theorem collectChunks_sound (botId : String) (ts : Int) (msgs : List Msg) :
    ∀ c ∈ collectChunks botId ts msgs,
      ∃ m, m ∈ msgs ∧ c = jsTrim m.content ∧ m.authorId = botId ∧
        ts - m.createdTimestamp ≤ maxResponseChainWindowMs := by
  induction msgs with
  | nil => intro c hc; simp [collectChunks] at hc
  | cons x xs ih =>
      intro c hc
      rw [collectChunks] at hc
      by_cases h1 : x.authorId ≠ botId
      · rw [if_pos h1] at hc; simp at hc
      · rw [if_neg h1] at hc
        by_cases h2 : 0 < x.embedsCount ∨ 0 < x.componentsCount
        · rw [if_pos h2] at hc; simp at hc
        · rw [if_neg h2] at hc
          by_cases h3 : jsTrim x.content = ""
          · rw [if_pos h3] at hc; simp at hc
          · rw [if_neg h3] at hc
            by_cases h4 : maxResponseChainWindowMs < ts - x.createdTimestamp
            · rw [if_pos h4] at hc; simp at hc
            · rw [if_neg h4] at hc
              by_cases h5 : x.refMessageId.isSome
              · rw [if_pos h5] at hc
                rw [List.mem_singleton] at hc
                exact ⟨x, List.mem_cons_self x xs, hc, not_not.mp h1,
                  not_lt.mp h4⟩
              · rw [if_neg h5] at hc
                rcases List.mem_cons.mp hc with hcx | hcs
                · exact ⟨x, List.mem_cons_self x xs, hcx, not_not.mp h1,
                    not_lt.mp h4⟩
                · obtain ⟨m, hm, hrest⟩ := ih c hcs
                  exact ⟨m, List.mem_cons_of_mem x hm, hrest⟩

/-- An anchor message that is a threaded reply but carries no content. -/
def emptyReplyAnchor : Msg :=
  { id := "a1", authorId := "bot", content := "", embedsCount := 0,
    componentsCount := 0, refMessageId := Option.some "orig",
    createdTimestamp := 1000 }

/-- A bot chunk one millisecond older than the anchors above. -/
def precedingChunkExample : Msg :=
  { id := "m0", authorId := "bot", content := "hello", embedsCount := 0,
    componentsCount := 0, refMessageId := Option.none,
    createdTimestamp := 999 }

/-- C6 counterexample: an anchor that is a threaded reply but has empty
content does stitch earlier messages — the recovered text is the preceding
bot chunk, not the anchor's own (empty) content alone, because the source
short-circuit (line 895) additionally requires chunks.length > 0. -/
theorem recover_reply_anchor_stitches :
    emptyReplyAnchor.refMessageId.isSome = true ∧
    jsTrim emptyReplyAnchor.content = "" ∧
    recoverFullMessageText "bot" emptyReplyAnchor true
        [precedingChunkExample] = "hello" := by
  refine ⟨rfl, rfl, ?_⟩
  rfl

/-- C6 amended.  Full-text recovery from a resolved anchor: (a) an anchor
that is a threaded reply *with nonempty content* yields exactly its own
trimmed content, with no stitching; (b) a history-lookup failure returns
what was already accumulated, namely the anchor's trimmed content; (c)
every stitched chunk comes from a bot-authored message of the walked
window created at most 2 minutes before the anchor (collectChunks stops
after a threaded-reply candidate); (d) for a non-reply anchor with the
fetch succeeding on a newest-first channel, the result is the walked
chunks in chronological order followed by the anchor chunk, joined with
blank lines and trimmed. -/
theorem recover_full_text_cases (botId : String) (anchor : Msg)
    (historyFetchOk : Bool) (history : List Msg)
    (hsorted : NewestFirst history) :
    (anchor.refMessageId.isSome = true → jsTrim anchor.content ≠ "" →
      recoverFullMessageText botId anchor historyFetchOk history =
        jsTrim anchor.content) ∧
    (historyFetchOk = false →
      recoverFullMessageText botId anchor historyFetchOk history =
        jsTrim anchor.content) ∧
    (∀ c ∈ collectChunks botId anchor.createdTimestamp
        (history.take maxPrecedingResponseMessages),
      ∃ m, m ∈ history.take maxPrecedingResponseMessages ∧
        c = jsTrim m.content ∧ m.authorId = botId ∧
        anchor.createdTimestamp - m.createdTimestamp ≤
          maxResponseChainWindowMs) ∧
    (anchor.refMessageId = Option.none → historyFetchOk = true →
      recoverFullMessageText botId anchor historyFetchOk history =
        jsTrim (joinChunks
          ((collectChunks botId anchor.createdTimestamp
              (history.take maxPrecedingResponseMessages)).reverse ++
            anchorChunkList anchor))) := by
  have htake : NewestFirst (history.take maxPrecedingResponseMessages) :=
    List.Pairwise.sublist (List.take_sublist _ _) hsorted
  refine ⟨?_, ?_, ?_, ?_⟩
  · intro href hcontent
    have hchunks : anchorChunkList anchor ≠ [] := by
      unfold anchorChunkList
      rw [if_neg hcontent]
      simp
    rw [recoverFullMessageText, if_pos ⟨href, hchunks⟩,
      jsTrim_joinChunks_anchor]
  · intro hfetch
    rw [recoverFullMessageText]
    by_cases hfirst : anchor.refMessageId.isSome = true ∧
        anchorChunkList anchor ≠ []
    · rw [if_pos hfirst, jsTrim_joinChunks_anchor]
    · rw [if_neg hfirst, hfetch]
      simp only [Bool.not_false, if_true, jsTrim_joinChunks_anchor]
  · exact collectChunks_sound botId anchor.createdTimestamp _
  · intro href hfetch
    have hfirst : ¬(anchor.refMessageId.isSome = true ∧
        anchorChunkList anchor ≠ []) := by
      intro ⟨ha, _⟩
      rw [href] at ha
      cases ha
    rw [recoverFullMessageText, if_neg hfirst, hfetch,
      sortByCreatedDesc_of_sorted _ htake]
    rfl

/-- A non-reply anchor holding the tail of a split reply. -/
def splitAnchorExample : Msg :=
  { id := "a2", authorId := "bot", content := "tail text",
    embedsCount := 0, componentsCount := 0, refMessageId := Option.none,
    createdTimestamp := 1000 }

/-- C6 amended witness: the non-reply anchor preceded by one in-window bot
chunk recovers the walked chunk followed by the anchor chunk, joined and
trimmed. -/
theorem recover_full_text_cases_witness :
    recoverFullMessageText "bot" splitAnchorExample true
        [precedingChunkExample] =
      jsTrim (joinChunks
        ((collectChunks "bot" splitAnchorExample.createdTimestamp
            ([precedingChunkExample].take
              maxPrecedingResponseMessages)).reverse ++
          anchorChunkList splitAnchorExample)) :=
  (recover_full_text_cases "bot" splitAnchorExample true
    [precedingChunkExample] (by simp [NewestFirst])).2.2.2 rfl rfl

/-! The interaction reply coordinator safeInteractionReply
(provenanceInteractions.ts lines 169-266). -/

/-- A thrown JavaScript error as inspected by the coordinator: whether it
is an object, its numeric code and its message. -/
structure JsError where
  isObject : Bool
  code : Option Int
  message : Option String

/-- Model of JavaScript `s.includes(sub)`: splitting on an occurring
substring yields at least two parts. -/
def jsIncludes (s sub : String) : Bool := decide (2 ≤ (s.splitOn sub).length)

/-- Model of isAlreadyAcknowledgedInteraction (source lines 169-180):
object errors with code 40060 or a message containing the Discord
already-acknowledged text. -/
def isAlreadyAcknowledgedInteraction (e : JsError) : Bool :=
  if !e.isObject then false
  else
    (match e.code with
     | Option.some c => decide (c = 40060)
     | Option.none => false) ||
    (match e.message with
     | Option.some s =>
         jsIncludes s "Interaction has already been acknowledged"
     | Option.none => false)

/-- The delivery calls the coordinator can make, in order. -/
inductive ReplyAction where
  | initialReply | followUpMessage | fetchReplyMessage
deriving DecidableEq

/-- Behaviour of the interaction object: acknowledgment flags and the
outcome of each Discord call (ok none models a response that is not a
message-like object, triggering the fetch). -/
structure ReplyEnv where
  deferred : Bool
  replied : Bool
  replyResult : Except JsError (Option Msg)
  followUpResult : Except JsError (Option Msg)
  fetchReplyResult : Except JsError Msg

/-- Model of the resolveMessage helper (source lines 194-213): keep a
message-like response, otherwise fetch the reply, degrading to null. -/
def resolveMessage (env : ReplyEnv) (response : Option Msg) :
    List ReplyAction × Option Msg :=
  match response with
  | Option.some m => ([], Option.some m)
  | Option.none =>
      match env.fetchReplyResult with
      | Except.ok m => ([ReplyAction.fetchReplyMessage], Option.some m)
      | Except.error _ => ([ReplyAction.fetchReplyMessage], Option.none)

/-- Model of safeInteractionReply (source lines 182-266): follow up
directly when already deferred/replied; otherwise attempt the initial
reply; on an already-acknowledged failure fall back to a follow-up
(swallowing a follow-up failure as null); rethrow any other reply error.
The first component records which delivery calls were attempted. -/
def safeInteractionReply (env : ReplyEnv) :
    List ReplyAction × Except JsError (Option Msg) :=
  if env.deferred || env.replied then
    match env.followUpResult with
    | Except.ok r =>
        let res := resolveMessage env r
        (ReplyAction.followUpMessage :: res.1, Except.ok res.2)
    | Except.error _ =>
        ([ReplyAction.followUpMessage], Except.ok Option.none)
  else
    match env.replyResult with
    | Except.ok r =>
        let res := resolveMessage env r
        (ReplyAction.initialReply :: res.1, Except.ok res.2)
    | Except.error e =>
        if !(isAlreadyAcknowledgedInteraction e) then
          ([ReplyAction.initialReply], Except.error e)
        else
          match env.followUpResult with
          | Except.ok r =>
              let res := resolveMessage env r
              (ReplyAction.initialReply :: ReplyAction.followUpMessage ::
                res.1, Except.ok res.2)
          | Except.error _ =>
              ([ReplyAction.initialReply, ReplyAction.followUpMessage],
               Except.ok Option.none)

/-- C9.  On a not-yet-acknowledged interaction whose initial reply throws:
if the error is the specific already-acknowledged condition (code 40060 or
the matching message), a follow-up message is attempted and no error is
propagated; any other error is propagated unchanged to the caller and no
follow-up is attempted. -/
theorem safe_reply_fallback (env : ReplyEnv) (e : JsError)
    (hd : env.deferred = false) (hr : env.replied = false)
    (hrr : env.replyResult = Except.error e) :
    (isAlreadyAcknowledgedInteraction e = true →
      ReplyAction.followUpMessage ∈ (safeInteractionReply env).1 ∧
      ∀ e', (safeInteractionReply env).2 ≠ Except.error e') ∧
    (isAlreadyAcknowledgedInteraction e = false →
      (safeInteractionReply env).2 = Except.error e ∧
      ReplyAction.followUpMessage ∉ (safeInteractionReply env).1) := by
  constructor
  · intro hack
    simp only [safeInteractionReply, hd, hr, Bool.or_self, Bool.false_eq_true,
      if_false, hrr, hack, Bool.not_true]
    cases hfu : env.followUpResult with
    | ok r =>
        refine ⟨List.mem_cons_of_mem _ (List.mem_cons_self _ _), ?_⟩
        intro e' h
        cases h
    | error e2 =>
        refine ⟨List.mem_cons_of_mem _ (List.mem_cons_self _ _), ?_⟩
        intro e' h
        cases h
  · intro hack
    simp only [safeInteractionReply, hd, hr, Bool.or_self, Bool.false_eq_true,
      if_false, hrr, hack, Bool.not_false, if_true]
    refine ⟨trivial, ?_⟩
    intro h
    rcases List.mem_singleton.mp h with h2
    cases h2

/-- The Discord already-acknowledged error, by numeric code. -/
def ackErrorExample : JsError :=
  { isObject := true, code := Option.some 40060, message := Option.none }

/-- An unrelated delivery error (a permissions failure code). -/
def otherErrorExample : JsError :=
  { isObject := true, code := Option.some 50013, message := Option.none }

/-- A fresh interaction whose initial reply throws the given error and
whose follow-up succeeds without a message-like response. -/
def replyEnvThrowing (e : JsError) : ReplyEnv :=
  { deferred := false, replied := false,
    replyResult := Except.error e,
    followUpResult := Except.ok Option.none,
    fetchReplyResult := Except.error e }

/-- C9 witness: with the 40060 error the coordinator attempts a follow-up
and returns without error; with an unrelated error it propagates exactly
that error. -/
theorem safe_reply_fallback_witness :
    (ReplyAction.followUpMessage ∈
        (safeInteractionReply (replyEnvThrowing ackErrorExample)).1 ∧
      ∀ e', (safeInteractionReply (replyEnvThrowing ackErrorExample)).2 ≠
        Except.error e') ∧
    ((safeInteractionReply (replyEnvThrowing otherErrorExample)).2 =
        Except.error otherErrorExample ∧
      ReplyAction.followUpMessage ∉
        (safeInteractionReply (replyEnvThrowing otherErrorExample)).1) :=
  ⟨(safe_reply_fallback (replyEnvThrowing ackErrorExample) ackErrorExample
      rfl rfl rfl).1 rfl,
   (safe_reply_fallback (replyEnvThrowing otherErrorExample)
      otherErrorExample rfl rfl rfl).2 rfl⟩

end Arete
